import Mathlib

/-!
Verification of the Galadriel CSS webpack integration client.

The development shallowly embeds the two source modules:
* the webpack loader (`galadrielWebpackLoader` with its helpers
  `replaceCss`, `asyncReplaceCss`, `replaceNenyrMakrup`,
  `asyncReplaceNenyrMakrup`, the token regex and the build artifact type), and
* the webpack plugin (`WebpackClient` with `setupProductionHooks`,
  `handleBeforeRun`, `installGaladrielCss`, `startGaladrielBuild`,
  `cleanupAfterBuild`, `verifyOS`, `detectLinuxDistro`).

Strings are modelled as `String` / `List Char`; JavaScript `undefined`
results become `Option`; a thrown exception becomes `Except.error`;
JavaScript objects used as string-keyed maps become association lists.
Network and filesystem effects are passed in as explicit parameters
(responses, probe output, exit codes, flags).
-/

namespace Galadriel

/-- The backslash character (code 92), written numerically. -/
def backslashChar : Char := Char.ofNat 92

/-- Character class of the regex identifier chunks `[a-zA-Z0-9_-]`. -/
def isIdentChar (c : Char) : Bool :=
  (('a' ≤ c && c ≤ 'z') || ('A' ≤ c && c ≤ 'Z') ||
   ('0' ≤ c && c ≤ '9') || c = '_' || c = '-')

/-- Greedy scan of a maximal (possibly empty) run of identifier characters,
returning the run and the remaining characters.  This is how the regex
engine consumes `[a-zA-Z0-9_-]+` (the caller rejects an empty run). -/
def takeIdent : List Char → List Char × List Char
  | [] => ([], [])
  | c :: cs =>
    if isIdentChar c then
      let p := takeIdent cs
      (c :: p.1, p.2)
    else ([], c :: cs)

/-- The three token namespaces of the regex alternation
`@(?:class|layout|module)`. -/
inductive TokenKind where
  | cls
  | layout
  | mod
deriving DecidableEq, Repr

/-- A match of the token regex
`@(?:class|layout|module):([a-zA-Z0-9_-]+)(?:::([a-zA-Z0-9_-]+))?`:
the namespace, the first capture group and the optional second capture
group. -/
structure NenyrToken where
  kind : TokenKind
  p1 : List Char
  p2 : Option (List Char)
deriving DecidableEq, Repr

/-- The literal namespace marker of a token kind, including the `:`. -/
def kindSig : TokenKind → List Char
  | .cls => '@' :: 'c' :: 'l' :: 'a' :: 's' :: 's' :: ':' :: []
  | .layout => '@' :: 'l' :: 'a' :: 'y' :: 'o' :: 'u' :: 't' :: ':' :: []
  | .mod => '@' :: 'm' :: 'o' :: 'd' :: 'u' :: 'l' :: 'e' :: ':' :: []

/-- The exact substring matched by a token (`match[0]` in the source). -/
def tokenText (t : NenyrToken) : List Char :=
  kindSig t.kind ++ t.p1 ++ (match t.p2 with
    | none => []
    | some s => ':' :: ':' :: s)

/-- Recognize one of the literal markers `@class:`, `@layout:`, `@module:`
at the head of the input (the alternatives are mutually exclusive, so the
alternation order of the regex is irrelevant). -/
def matchKind : List Char → Option (TokenKind × List Char)
  | '@' :: 'c' :: 'l' :: 'a' :: 's' :: 's' :: ':' :: rest => some (.cls, rest)
  | '@' :: 'l' :: 'a' :: 'y' :: 'o' :: 'u' :: 't' :: ':' :: rest =>
      some (.layout, rest)
  | '@' :: 'm' :: 'o' :: 'd' :: 'u' :: 'l' :: 'e' :: ':' :: rest =>
      some (.mod, rest)
  | _ => none

/-- Try to match the token regex at the head of the input.  The first
identifier is mandatory; the `(?:::ident)?` group matches only when `::`
is immediately followed by at least one identifier character (otherwise
the greedy attempt backtracks and the optional group is dropped, exactly
as in the regex). -/
def matchToken (l : List Char) : Option (NenyrToken × List Char) :=
  match matchKind l with
  | none => none
  | some (k, r1) =>
    match takeIdent r1 with
    | ([], _) => none
    | (c :: cs, r2) =>
      match r2 with
      | ':' :: ':' :: r3 =>
        match takeIdent r3 with
        | ([], _) => some (⟨k, c :: cs, none⟩, r2)
        | (d :: ds, r4) => some (⟨k, c :: cs, some (d :: ds)⟩, r4)
      | _ => some (⟨k, c :: cs, none⟩, r2)

/-- One global-regex scan of the input (`source.matchAll(REGEX)` or the
match enumeration of `source.replace(REGEX, cb)`): at each position try to
match; on success emit the token and resume after the matched substring,
otherwise advance one character.  Structured on explicit fuel; with fuel
at least the length of the input the scan is complete. -/
def findTokensAux : Nat → List Char → List NenyrToken
  | 0, _ => []
  | _, [] => []
  | fuel + 1, c :: cs =>
    match matchToken (c :: cs) with
    | some (t, rest) => t :: findTokensAux fuel rest
    | none => findTokensAux fuel cs

/-- All regex matches of a source string, in scan order. -/
def findTokens (s : String) : List NenyrToken :=
  findTokensAux s.data.length s.data

/-- Split a list at the first occurrence of a (nonempty) pattern:
the part before the occurrence and the part after it.  `none` when the
pattern does not occur.  This models `String.prototype.indexOf` as used
by single-string `replace` and by `includes`. -/
def splitFirst (pat : List Char) : List Char → Option (List Char × List Char)
  | [] => none
  | c :: cs =>
    if (c :: cs).take pat.length = pat then some ([], (c :: cs).drop pat.length)
    else
      match splitFirst pat cs with
      | some p => some (c :: p.1, p.2)
      | none => none

/-- GetSubstitution for a string (captureless) search value: in the
replacement string `$$` yields `$`, `$&` the matched substring, a
dollar-backquote the part before the match, a dollar-quote the part after
it; every other character (including an unpaired `$`) is literal. -/
def dollarExpand (matched pre post : List Char) : List Char → List Char
  | [] => []
  | c :: [] => c :: []
  | c :: d :: r =>
    if c = '$' then
      if d = '$' then '$' :: dollarExpand matched pre post r
      else if d = '&' then matched ++ dollarExpand matched pre post r
      else if d = Char.ofNat 96 then pre ++ dollarExpand matched pre post r
      else if d = Char.ofNat 39 then post ++ dollarExpand matched pre post r
      else '$' :: d :: dollarExpand matched pre post r
    else c :: dollarExpand matched pre post (d :: r)

/-- JavaScript `str.replace(searchString, replacementString)`: replace the
first occurrence of the (nonempty) search string, applying dollar
substitution to the replacement; no occurrence leaves the string
unchanged. -/
def jsReplaceFirst (l pat rep : List Char) : List Char :=
  match splitFirst pat l with
  | none => l
  | some p => p.1 ++ dollarExpand pat p.1 p.2 rep ++ p.2

/-- JavaScript `String.prototype.includes` for our purposes. -/
def containsSub (s pat : String) : Bool :=
  (splitFirst pat.data s.data).isSome

/-- The bulk-stylesheet directive literal. -/
def directive : String := "@galadrielcss styles;"

/-- Test of `source.includes("@galadrielcss styles;")`. -/
def containsDirective (s : String) : Bool :=
  containsSub s directive

/-- The `trackingClasses` field of the build artifact: three string-keyed
maps (JavaScript objects), modelled as association lists. -/
structure TrackingClasses where
  central : List (String × String)
  layouts : List (String × List (String × String))
  modules : List (String × List (String × String))
deriving DecidableEq, Repr

/-- The `GaladrielBuildType` loaded from `.galadrielcss/galadrielcss.json`
in production mode. -/
structure GaladrielBuildType where
  css : String
  trackingClasses : TrackingClasses
deriving DecidableEq, Repr

/-- Property lookup in a string-keyed JavaScript object: `undefined`
becomes `none`. -/
def jsLookup {α : Type} (m : List (String × α)) (k : String) : Option α :=
  match m with
  | [] => none
  | p :: rest => if p.1 = k then some p.2 else jsLookup rest k

/-- The property key used for the second capture group: when the optional
regex group did not participate, `p2` is `undefined` and a JavaScript
property access coerces it to the string key `"undefined"`. -/
def p2Key (t : NenyrToken) : String :=
  match t.p2 with
  | some s => String.mk s
  | none => "undefined"

/-- Lookup of one matched token against
`GALADRIEL_BUILD_DATA?.trackingClasses` in `replaceNenyrMakrup`:
`central[p1]` for a class token, `layouts[p1][p2]` for a layout token and
`modules[p1][p2]` for a module token.  When the outer lookup of a layout
or module name is `undefined`, the inner indexing throws a `TypeError`,
modelled as `Except.error`; when `trackingMap` itself is `undefined` the
optional chain short-circuits to `undefined` with no error. -/
def resolveTokenPre (d : Option GaladrielBuildType) (t : NenyrToken) :
    Except Unit (Option String) :=
  match d with
  | none => .ok none
  | some data =>
    match t.kind with
    | .cls => .ok (jsLookup data.trackingClasses.central (String.mk t.p1))
    | .layout =>
      match jsLookup data.trackingClasses.layouts (String.mk t.p1) with
      | none => .error ()
      | some inner => .ok (jsLookup inner (p2Key t))
    | .mod =>
      match jsLookup data.trackingClasses.modules (String.mk t.p1) with
      | none => .error ()
      | some inner => .ok (jsLookup inner (p2Key t))

/-- `value.replaceAll(backslash, empty)`: remove every backslash. -/
def stripBackslashes (v : String) : String :=
  String.mk (v.data.filter (fun c => c ≠ backslashChar))

/-- The replacement callback of `replaceNenyrMakrup`:
`replaceValue ? replaceValue.replaceAll(backslash, empty) : match` — a
truthy (present and nonempty) value is substituted after unescaping, a
falsy one (absent entry or empty string) keeps the matched text. -/
def tokenReplacement (d : Option GaladrielBuildType) (t : NenyrToken) :
    Except Unit (List Char) :=
  match resolveTokenPre d t with
  | .error e => .error e
  | .ok none => .ok (tokenText t)
  | .ok (some v) =>
    .ok (if v = "" then tokenText t else (stripBackslashes v).data)

/-- `source.replace(REGEX, cb)` with a callback that may throw: scan for
matches as in `findTokensAux`, emitting non-matching characters verbatim
and the callback's result for each match; a callback exception aborts the
whole replacement. -/
def scanReplaceAux (cb : NenyrToken → Except Unit (List Char)) :
    Nat → List Char → Except Unit (List Char)
  | 0, l => .ok l
  | _, [] => .ok []
  | fuel + 1, c :: cs =>
    match matchToken (c :: cs) with
    | some (t, rest) =>
      match cb t, scanReplaceAux cb fuel rest with
      | .ok r, .ok tail => .ok (r ++ tail)
      | .error e, _ => .error e
      | .ok _, .error e => .error e
    | none =>
      match scanReplaceAux cb fuel cs with
      | .ok tail => .ok (c :: tail)
      | .error e => .error e

/-- The production-mode token pass `replaceNenyrMakrup(source)`,
parameterized by the loaded build data. -/
def replaceNenyrMakrup (d : Option GaladrielBuildType) (source : String) :
    Except Unit String :=
  match scanReplaceAux (tokenReplacement d) source.data.length source.data with
  | .ok l => .ok (String.mk l)
  | .error e => .error e

/-- The production-mode directive pass `replaceCss(source)`:
`GALADRIEL_BUILD_DATA?.css` truthy substitutes the first occurrence of
the directive, otherwise the source is returned untouched. -/
def replaceCss (d : Option GaladrielBuildType) (source : String) : String :=
  match d with
  | none => source
  | some data =>
    if data.css = "" then source
    else String.mk (jsReplaceFirst source.data directive.data data.css.data)

/-- The development-mode directive pass `asyncReplaceCss(source)`,
parameterized by the body of the `GET /fetch-css` response. -/
def asyncReplaceCss (cssResponse : String) (source : String) : String :=
  String.mk (jsReplaceFirst source.data directive.data cssResponse.data)

/-- The matched substrings handed to `retrieveUtilityClassnames`, one per
regex match of the source: the development-mode resolution requests. -/
def requestsOf (source : String) : List String :=
  (findTokens source).map (fun t => String.mk (tokenText t))

/-- The substitution loop of `asyncReplaceNenyrMakrup`: once all results
are available (in match-index order), fold over them replacing, for each
index, the first occurrence of `matches[index][0]` with
`transformedMatches[index]`. -/
def substituteSequentially (pairs : List (List Char × List Char))
    (source : List Char) : List Char :=
  pairs.foldl (fun acc p => jsReplaceFirst acc p.1 p.2) source

/-- The development-mode token pass `asyncReplaceNenyrMakrup(source)`,
parameterized by the network resolution (matched substring to response
body).  `Promise.all` delivers the responses in match-index order
regardless of completion order. -/
def asyncReplaceNenyrMakrup (resolve : String → String) (source : String) :
    String :=
  let reqs := requestsOf source
  let results := reqs.map (fun r => (resolve r).data)
  String.mk
    (substituteSequentially ((reqs.map String.data).zip results) source.data)

/-- A completion schedule: the resolution responses in network arrival
order, each labelled with the index of the match that requested it. -/
def resultsFromArrivals (n : Nat) (arrivals : List (Nat × String)) :
    List (Option String) :=
  (List.range n).map (fun i =>
    (arrivals.find? (fun p => p.1 = i)).map (fun p => p.2))

/-- The development-mode token pass fed from an explicit completion
schedule: each arriving response is stored in the slot of its match index
(the behaviour of `Promise.all`), then substitution proceeds exactly as
in `asyncReplaceNenyrMakrup`. -/
def asyncReplaceFromArrivals (arrivals : List (Nat × String))
    (source : String) : String :=
  let reqs := requestsOf source
  let results := (resultsFromArrivals reqs.length arrivals).map
    (fun o => (o.getD "").data)
  String.mk
    (substituteSequentially ((reqs.map String.data).zip results) source.data)

/-- Modelled from the spec: the substitution the specification describes
for live mode, where every resolved value lands at its own match site —
one scan that replaces each matched substring, in place, by the response
for that very match.  Defined only to be compared with the sequential
first-occurrence substitution actually performed by the source. -/
def scanSubstAux (cb : NenyrToken → List Char) :
    Nat → List Char → List Char
  | 0, l => l
  | _, [] => []
  | fuel + 1, c :: cs =>
    match matchToken (c :: cs) with
    | some (t, rest) => cb t ++ scanSubstAux cb fuel rest
    | none => c :: scanSubstAux cb fuel cs

/-- Modelled from the spec: live-mode substitution of each response at its
own match site (see `scanSubstAux`). -/
def specOwnSiteSubstitute (resolve : String → String) (source : String) :
    String :=
  String.mk
    (scanSubstAux (fun t => (resolve (String.mk (tokenText t))).data)
      source.data.length source.data)

/-- The loader body `galadrielWebpackLoader` in production mode
(`IS_GALADRIEL_BUILD` true): a source containing the directive goes
through `replaceCss` only, any other source goes through
`replaceNenyrMakrup`; a thrown error reaches the webpack callback's error
channel (`Except.error`). -/
def transformPre (d : Option GaladrielBuildType) (source : String) :
    Except Unit String :=
  if containsDirective source then .ok (replaceCss d source)
  else replaceNenyrMakrup d source

/-- The loader body `galadrielWebpackLoader` in development mode: a source
containing the directive goes through `asyncReplaceCss` only, any other
source through `asyncReplaceNenyrMakrup`. -/
def transformLive (cssResponse : String) (resolve : String → String)
    (source : String) : String :=
  if containsDirective source then asyncReplaceCss cssResponse source
  else asyncReplaceNenyrMakrup resolve source

/-- The Linux C-library probe `detectLinuxDistro`: `some out` is the text
printed by `ldd $(which ls)`, `none` a probe that threw.  The musl target
is chosen exactly when the probe output contains `musl`; a failed probe
is logged and the glibc target returned. -/
def detectLinuxDistro (probe : Option String) : String :=
  match probe with
  | some out =>
    if containsSub out "musl" then "x86_64-unknown-linux-musl"
    else "x86_64-unknown-linux-gnu"
  | none => "x86_64-unknown-linux-gnu"

/-- The platform resolver `verifyOS(platform, architecture)` of the
plugin, with the Linux probe outcome passed explicitly; `none` models the
`null` (unsupported) result. -/
def verifyOS (platform arch : String) (probe : Option String) :
    Option String :=
  if platform = "darwin" then
    some (if containsSub arch "x64" then "x86_64-apple-darwin"
      else "aarch64-apple-darwin")
  else if platform = "win32" ∧ containsSub arch "x64" = true then
    some "x86_64-pc-windows-msvc"
  else if platform = "linux" ∧ containsSub arch "x64" = true then
    some (detectLinuxDistro probe)
  else none

/-- The observable environment of one production install+build attempt:
platform report, probe outcome, download behaviour and build-subprocess
outcome (`some code` for a `close` event, `none` for an `error` event). -/
structure BeforeRunEnv where
  platform : String
  arch : String
  probe : Option String
  downloadThrows : Bool
  httpStatus : Nat
  writerFails : Bool
  binaryExists : Bool
  buildOutcome : Option Int
deriving DecidableEq, Repr

/-- The promise returned by `installGaladrielCss`: an unsupported platform
throws, then a download exception, a non-200 status and a write-stream
error each reject, and the final existence check rejects when the binary
is missing; otherwise the install resolves. -/
def installGaladrielCss (e : BeforeRunEnv) : Except String Unit :=
  match verifyOS e.platform e.arch e.probe with
  | none => .error "Unsupported OS or architecture. Galadriel CSS cannot run."
  | some _ =>
    if e.downloadThrows then .error "download request failed"
    else if e.httpStatus ≠ 200 then
      .error "Failed to download Galadriel CSS."
    else if e.writerFails then .error "file write error"
    else if e.binaryExists then .ok ()
    else .error "Galadriel CSS binary not found!"

/-- The promise returned by `startGaladrielBuild`: exit code 0 resolves,
any other exit code rejects, and a spawn error event rejects. -/
def startGaladrielBuild (e : BeforeRunEnv) : Except String Unit :=
  match e.buildOutcome with
  | some 0 => .ok ()
  | some _ => .error "Process finished with error code"
  | none => .error "Error executing Galadriel CSS build"

/-- The `beforeRun` tap `handleBeforeRun`: awaits the install and then the
build inside a `try`, whose `catch` logs the error and returns normally —
the promise handed to webpack. -/
def handleBeforeRun (e : BeforeRunEnv) : Except String Unit :=
  match (installGaladrielCss e).bind (fun _ => startGaladrielBuild e) with
  | .ok _ => .ok ()
  | .error _ => .ok ()

/-- The module-level mutable state of the plugin
(`hasRunGaladrielBuild`, `hasRemovedGaladrielDir`), the hook
registrations performed by `setupProductionHooks`, the invocation
counters of the effectful steps, and whether the `.galadrielcss`
directory currently exists. -/
structure LifecycleState where
  hasRunGaladrielBuild : Bool
  hasRemovedGaladrielDir : Bool
  beforeRunTaps : Nat
  doneTaps : Nat
  installCount : Nat
  buildCount : Nat
  removeCount : Nat
  galadrielDirExists : Bool
deriving DecidableEq, Repr

/-- Process start: both flags false, no taps, no invocations. -/
def initialState (dirExists : Bool) : LifecycleState :=
  { hasRunGaladrielBuild := false
    hasRemovedGaladrielDir := false
    beforeRunTaps := 0
    doneTaps := 0
    installCount := 0
    buildCount := 0
    removeCount := 0
    galadrielDirExists := dirExists }

/-- `setupProductionHooks(compiler)`: guarded by `hasRunGaladrielBuild`,
tap `beforeRun` once ever; tap `done` unconditionally. -/
def setupProductionHooks (s : LifecycleState) : LifecycleState :=
  let s1 :=
    if s.hasRunGaladrielBuild then s
    else { s with hasRunGaladrielBuild := true
                  beforeRunTaps := s.beforeRunTaps + 1 }
  { s1 with doneTaps := s1.doneTaps + 1 }

/-- One firing of the compiler's `beforeRun` hook: every registered tap
runs `handleBeforeRun`, which performs one install and one build
invocation. -/
def fireBeforeRun (s : LifecycleState) : LifecycleState :=
  { s with installCount := s.installCount + s.beforeRunTaps
           buildCount := s.buildCount + s.beforeRunTaps }

/-- `removeGaladrielTempFolder()`: remove the `.galadrielcss` directory
when it exists, otherwise do nothing. -/
def removeGaladrielTempFolder (s : LifecycleState) : LifecycleState :=
  if s.galadrielDirExists then
    { s with galadrielDirExists := false, removeCount := s.removeCount + 1 }
  else s

/-- The `done` tap `cleanupAfterBuild`: guarded by
`hasRemovedGaladrielDir`, set the flag and remove the directory on the
first call only. -/
def cleanupAfterBuild (s : LifecycleState) : LifecycleState :=
  if s.hasRemovedGaladrielDir then s
  else removeGaladrielTempFolder { s with hasRemovedGaladrielDir := true }

/-! Supporting lemmas about the scanner. -/

/-- A scan that finds no token replaces nothing: `scanReplaceAux` returns
the input unchanged whenever `findTokensAux` is empty at the same fuel. -/
theorem scanReplaceAux_of_no_token (cb : NenyrToken → Except Unit (List Char)) :
    ∀ (fuel : Nat) (l : List Char), findTokensAux fuel l = [] →
      scanReplaceAux cb fuel l = .ok l := by
  intro fuel
  induction fuel with
  | zero => intro l _; cases l <;> rfl
  | succ n ih =>
    intro l h
    match l with
    | [] => rfl
    | c :: cs =>
      rw [findTokensAux] at h
      rw [scanReplaceAux]
      match hm : matchToken (c :: cs) with
      | some (t, rest) => simp [hm] at h
      | none =>
        simp only [hm] at h ⊢
        rw [ih cs h]

/-- The sequential substitution over an empty match list is the
identity. -/
theorem substituteSequentially_nil (l : List Char) :
    substituteSequentially [] l = l := rfl

/-! Claim theorems. -/

/-- Build artifact for the missing-outer-name experiments: `layouts` and
`modules` have no entries at all, `central` has one entry. -/
def artMissingOuter : GaladrielBuildType :=
  { css := "CSSVAL"
    trackingClasses :=
      { central := [("ok", "val")]
        layouts := []
        modules := [] } }

/-- C1: in precompiled mode a class token with no matching entry does pass
through unchanged with no error, but a layout (or module) token whose
outer name is absent from `trackingClasses.layouts` does not: the inner
indexing of an `undefined` outer lookup throws a `TypeError`, which the
loader surfaces on the error channel instead of leaving the matched
substring in place.  The claim's universal soft-failure property fails at
this input. -/
theorem layout_missing_outer_name_throws :
    replaceNenyrMakrup (some artMissingOuter) "start @class:missing end" =
      Except.ok "start @class:missing end"
    ∧ replaceNenyrMakrup (some artMissingOuter) "start @layout:foo::bar end" =
      Except.error ()
    ∧ replaceNenyrMakrup (some artMissingOuter) "start @module:foo::bar end" =
      Except.error () :=
  ⟨rfl, rfl, rfl⟩

/-- Build artifact whose `css` field and `central` map can both serve:
the stylesheet is `"C"` and the class token `a` resolves to `"X"`. -/
def artDirective : GaladrielBuildType :=
  { css := "C"
    trackingClasses :=
      { central := [("a", "X")]
        layouts := []
        modules := [] } }

/-- Build artifact whose `css` field is the empty string. -/
def artEmptyCss : GaladrielBuildType :=
  { css := ""
    trackingClasses :=
      { central := [("a", "X")]
        layouts := []
        modules := [] } }

/-- C2 counterexample: a file containing both the directive and a markup
token gets only the directive rewritten.  The token `@class:a` resolves
to `X` when the file has no directive, yet with the directive present the
output still contains the unresolved token match. -/
theorem directive_present_skips_token_pass :
    transformPre (some artDirective) "@galadrielcss styles; @class:a" =
      Except.ok "C @class:a"
    ∧ transformPre (some artDirective) "zz @class:a yy" = Except.ok "zz X yy"
    ∧ findTokens "C @class:a" = [⟨.cls, 'a' :: [], none⟩] :=
  ⟨rfl, rfl, by decide⟩

/-- C2 amended: the two features are mutually exclusive, not sequential.
When the directive is present, the loader performs only the directive
substitution (in either mode) and never scans for markup tokens — in
particular, with an artifact whose `css` is empty the whole transform is
the identity even when the file contains resolvable tokens. -/
theorem directive_and_tokens_mutually_exclusive
    (d : Option GaladrielBuildType) (data : GaladrielBuildType)
    (cssResponse : String) (resolve : String → String) (s : String)
    (hdir : containsDirective s = true) (hcss : data.css = "") :
    transformPre d s = .ok (replaceCss d s)
    ∧ transformLive cssResponse resolve s = asyncReplaceCss cssResponse s
    ∧ transformPre (some data) s = .ok s := by
  refine ⟨?_, ?_, ?_⟩ <;>
    simp [transformPre, transformLive, hdir, replaceCss, hcss]

/-- Witness for the amended C2 at a concrete source containing both the
directive and a resolvable token. -/
theorem directive_and_tokens_mutually_exclusive_witness :
    transformPre (some artDirective) "@galadrielcss styles; @class:a" =
      .ok (replaceCss (some artDirective) "@galadrielcss styles; @class:a")
    ∧ transformLive "CSS" (fun _ => "R") "@galadrielcss styles; @class:a" =
      asyncReplaceCss "CSS" "@galadrielcss styles; @class:a"
    ∧ transformPre (some artEmptyCss) "@galadrielcss styles; @class:a" =
      .ok "@galadrielcss styles; @class:a" :=
  directive_and_tokens_mutually_exclusive (some artDirective) artEmptyCss
    "CSS" (fun _ => "R") "@galadrielcss styles; @class:a" (by decide) rfl

/-- C8: on a source containing neither the directive nor any token match,
the transform is the identity in both modes. -/
theorem transform_identity_without_markup
    (d : Option GaladrielBuildType) (cssResponse : String)
    (resolve : String → String) (s : String)
    (hdir : containsDirective s = false) (htok : findTokens s = []) :
    transformPre d s = .ok s ∧ transformLive cssResponse resolve s = s := by
  rw [findTokens] at htok
  constructor
  · rw [transformPre, hdir]
    simp only [Bool.false_eq_true, if_false]
    rw [replaceNenyrMakrup,
      scanReplaceAux_of_no_token (tokenReplacement d) _ _ htok]
  · rw [transformLive, hdir]
    simp only [Bool.false_eq_true, if_false]
    rw [asyncReplaceNenyrMakrup]
    have htok' : findTokensAux s.length s.data = [] := htok
    simp [requestsOf, findTokens, htok', substituteSequentially]

/-- Witness for C8 at a concrete markup-free source. -/
theorem transform_identity_without_markup_witness :
    transformPre none "const x = 1; // plain file" =
      .ok "const x = 1; // plain file"
    ∧ transformLive "CSS" (fun _ => "R") "const x = 1; // plain file" =
      "const x = 1; // plain file" :=
  transform_identity_without_markup none "CSS" (fun _ => "R")
    "const x = 1; // plain file" (by decide) (by decide)

/-- Dollar substitution is the identity on a replacement string free of
dollar characters: such a replacement is inserted verbatim. -/
theorem dollarExpand_of_no_dollar (matched pre post : List Char) :
    ∀ r : List Char, (∀ c ∈ r, c ≠ '$') →
      dollarExpand matched pre post r = r
  | [], _ => rfl
  | _ :: [], _ => rfl
  | c :: d :: r, h => by
    have hc : c ≠ '$' := h c (List.mem_cons_self c (d :: r))
    have tail := dollarExpand_of_no_dollar matched pre post (d :: r)
      (fun e he => h e (List.mem_cons_of_mem c he))
    rw [dollarExpand, if_neg hc, tail]

/-- C7: a token found in the artifact with a truthy value is substituted
by the stored value with every literal backslash removed, so no backslash
survives into the replacement; a live-mode response (dollar-free, as
compiled class names are) is substituted verbatim, with no unescaping of
any kind. -/
theorem artifact_values_are_unescaped
    (d : Option GaladrielBuildType) (t : NenyrToken) (v : String)
    (matched pre post r : List Char)
    (hres : resolveTokenPre d t = Except.ok (some v)) (hv : v ≠ "")
    (hr : ∀ c ∈ r, c ≠ '$') :
    tokenReplacement d t = Except.ok (stripBackslashes v).data
    ∧ (∀ c ∈ (stripBackslashes v).data, c ≠ backslashChar)
    ∧ dollarExpand matched pre post r = r := by
  refine ⟨?_, ?_, dollarExpand_of_no_dollar matched pre post r hr⟩
  · rw [tokenReplacement, hres]
    simp [hv]
  · intro c hc
    rw [stripBackslashes] at hc
    simpa using (List.mem_filter.mp hc).2

/-- A stored value containing a literal backslash. -/
def escapedValue : String := String.mk ('q' :: backslashChar :: 'w' :: [])

/-- Build artifact holding the backslash-escaped value under the class
name `a`. -/
def artEscaped : GaladrielBuildType :=
  { css := "C"
    trackingClasses :=
      { central := [("a", escapedValue)]
        layouts := []
        modules := [] } }

/-- Witness for C7 at a concrete artifact entry containing a backslash
and a concrete dollar-free live response. -/
theorem artifact_values_are_unescaped_witness :
    tokenReplacement (some artEscaped) ⟨.cls, 'a' :: [], none⟩ =
      Except.ok (stripBackslashes escapedValue).data
    ∧ (∀ c ∈ (stripBackslashes escapedValue).data, c ≠ backslashChar)
    ∧ dollarExpand "@class:a".data [] " tail".data "btn-1a2b".data =
      "btn-1a2b".data :=
  artifact_values_are_unescaped (some artEscaped) ⟨.cls, 'a' :: [], none⟩
    escapedValue "@class:a".data [] " tail".data "btn-1a2b".data
    rfl (by decide) (by decide)

/-- C10: a value present in the artifact but equal to the empty string is
treated exactly like a missing entry — an empty-string entry keeps the
matched token text, and an empty `css` field leaves the source (and its
directive) untouched. -/
theorem empty_values_behave_like_missing
    (d : Option GaladrielBuildType) (t : NenyrToken)
    (data : GaladrielBuildType) (s : String)
    (hres : resolveTokenPre d t = Except.ok (some ""))
    (hcss : data.css = "") :
    tokenReplacement d t = Except.ok (tokenText t)
    ∧ replaceCss (some data) s = s := by
  constructor
  · rw [tokenReplacement, hres]
    simp
  · rw [replaceCss]
    simp [hcss]

/-- Build artifact holding an empty-string value under the class name
`btn`, alongside an empty-string layout entry. -/
def artEmptyEntry : GaladrielBuildType :=
  { css := "C"
    trackingClasses :=
      { central := [("btn", "")]
        layouts := [("l", [("s", "")])]
        modules := [] } }

/-- Witness for C10 at a concrete empty-string artifact entry and a
concrete directive-bearing source with an empty `css` field. -/
theorem empty_values_behave_like_missing_witness :
    tokenReplacement (some artEmptyEntry) ⟨.cls, 'b' :: 't' :: 'n' :: [], none⟩ =
      Except.ok (tokenText ⟨.cls, 'b' :: 't' :: 'n' :: [], none⟩)
    ∧ replaceCss (some artEmptyCss) "@galadrielcss styles; body" =
      "@galadrielcss styles; body" :=
  empty_values_behave_like_missing (some artEmptyEntry)
    ⟨.cls, 'b' :: 't' :: 'n' :: [], none⟩ artEmptyCss
    "@galadrielcss styles; body" rfl rfl

/-- C4 counterexample: the pair `(darwin, ia32)` is not among the five
supported pairs of the claim, yet the resolver does not report
unsupported — any darwin architecture whose name lacks the substring
`x64` falls into the arm64 branch. -/
theorem verifyOS_darwin_ia32_not_unsupported :
    verifyOS "darwin" "ia32" none = some "aarch64-apple-darwin"
    ∧ verifyOS "darwin" "ia32" none ≠ none :=
  ⟨by decide, by decide⟩

/-- C4 amended: the resolver decides on substring tests, not exact pairs.
`darwin` yields the x86-64 darwin target when the architecture contains
`x64` and the arm64 darwin target for every other architecture; `win32`
and `linux` require an architecture containing `x64`; on linux the musl
target is chosen exactly when the probe output contains `musl`, with the
glibc target for any other probe output and for a failed probe; every
remaining platform is unsupported. -/
theorem verifyOS_characterization
    (archOther archX archAny : String) (prAny : Option String)
    (muslOut gnuOut otherPlat : String)
    (hOther : containsSub archOther "x64" = false)
    (hX : containsSub archX "x64" = true)
    (hMusl : containsSub muslOut "musl" = true)
    (hGnu : containsSub gnuOut "musl" = false)
    (hp1 : otherPlat ≠ "darwin") (hp2 : otherPlat ≠ "win32")
    (hp3 : otherPlat ≠ "linux") :
    verifyOS "darwin" archX prAny = some "x86_64-apple-darwin"
    ∧ verifyOS "darwin" archOther prAny = some "aarch64-apple-darwin"
    ∧ verifyOS "win32" archX prAny = some "x86_64-pc-windows-msvc"
    ∧ verifyOS "linux" archX (some muslOut) = some "x86_64-unknown-linux-musl"
    ∧ verifyOS "linux" archX (some gnuOut) = some "x86_64-unknown-linux-gnu"
    ∧ verifyOS "linux" archX none = some "x86_64-unknown-linux-gnu"
    ∧ verifyOS "win32" archOther prAny = none
    ∧ verifyOS "linux" archOther prAny = none
    ∧ verifyOS otherPlat archAny prAny = none := by
  have w1 : ("win32" : String) ≠ "darwin" := by decide
  have w2 : ("linux" : String) ≠ "darwin" := by decide
  have w3 : ("win32" : String) ≠ "linux" := by decide
  have w4 : ("linux" : String) ≠ "win32" := by decide
  refine ⟨?_, ?_, ?_, ?_, ?_, ?_, ?_, ?_, ?_⟩ <;>
    simp [verifyOS, detectLinuxDistro, hOther, hX, hMusl, hGnu,
      hp1, hp2, hp3, w1, w2, w3, w4]

/-- Witness for the amended C4 at concrete architecture strings and probe
outputs (including the real pairs `(darwin, x64)`, `(darwin, arm64)` and
a musl and a glibc `ldd` report). -/
theorem verifyOS_characterization_witness :
    verifyOS "darwin" "x64" (some "ldd") = some "x86_64-apple-darwin"
    ∧ verifyOS "darwin" "arm64" (some "ldd") = some "aarch64-apple-darwin"
    ∧ verifyOS "win32" "x64" (some "ldd") = some "x86_64-pc-windows-msvc"
    ∧ verifyOS "linux" "x64" (some "ld-musl-x86_64.so.1") =
      some "x86_64-unknown-linux-musl"
    ∧ verifyOS "linux" "x64" (some "libc.so.6 => /lib/libc.so.6") =
      some "x86_64-unknown-linux-gnu"
    ∧ verifyOS "linux" "x64" none = some "x86_64-unknown-linux-gnu"
    ∧ verifyOS "win32" "arm64" (some "ldd") = none
    ∧ verifyOS "linux" "arm64" (some "ldd") = none
    ∧ verifyOS "freebsd" "x64" (some "ldd") = none :=
  verifyOS_characterization "arm64" "x64" "x64" (some "ldd")
    "ld-musl-x86_64.so.1" "libc.so.6 => /lib/libc.so.6" "freebsd"
    (by decide) (by decide) (by decide) (by decide)
    (by decide) (by decide) (by decide)

/-- A production environment on an unsupported platform pair. -/
def envUnsupported : BeforeRunEnv :=
  { platform := "win32"
    arch := "arm64"
    probe := none
    downloadThrows := false
    httpStatus := 200
    writerFails := false
    binaryExists := true
    buildOutcome := some 0 }

/-- A production environment whose binary download request throws. -/
def envDownloadFail : BeforeRunEnv :=
  { envUnsupported with platform := "darwin", arch := "x64"
                        downloadThrows := true }

/-- A production environment whose build subprocess exits nonzero. -/
def envBuildFail : BeforeRunEnv :=
  { envUnsupported with platform := "linux", arch := "x64"
                        probe := some "libc.so.6"
                        buildOutcome := some 1 }

/-- C3: the unsupported-platform throw, the download rejection and the
nonzero build exit are all raised by the install/build steps, but the
production `beforeRun` tap catches every one of them, logs, and returns a
promise that resolves — the claimed rejected promise never reaches the
bundler's hook. -/
theorem handleBeforeRun_swallows_fatal_errors :
    installGaladrielCss envUnsupported =
      Except.error "Unsupported OS or architecture. Galadriel CSS cannot run."
    ∧ handleBeforeRun envUnsupported = Except.ok ()
    ∧ installGaladrielCss envDownloadFail =
      Except.error "download request failed"
    ∧ handleBeforeRun envDownloadFail = Except.ok ()
    ∧ startGaladrielBuild envBuildFail =
      Except.error "Process finished with error code"
    ∧ handleBeforeRun envBuildFail = Except.ok () :=
  ⟨rfl, rfl, rfl, rfl, rfl, rfl⟩

/-- When the guard flag is already set, `setupProductionHooks` only adds
its unconditional `done` tap. -/
theorem setupProductionHooks_of_hasRun (s : LifecycleState)
    (h : s.hasRunGaladrielBuild = true) :
    setupProductionHooks s = { s with doneTaps := s.doneTaps + 1 } := by
  simp [setupProductionHooks, h]

/-- Closed form for repeated setup from process start: however many times
the production hooks are installed, the `beforeRun` tap is registered
exactly once and nothing has been invoked yet. -/
theorem setup_iter_closed (b : Bool) :
    ∀ n : Nat, setupProductionHooks^[n + 1] (initialState b) =
      { hasRunGaladrielBuild := true
        hasRemovedGaladrielDir := false
        beforeRunTaps := 1
        doneTaps := n + 1
        installCount := 0
        buildCount := 0
        removeCount := 0
        galadrielDirExists := b } := by
  intro n
  induction n with
  | zero => rfl
  | succ k ih =>
    rw [Function.iterate_succ_apply' setupProductionHooks (k + 1), ih,
      setupProductionHooks_of_hasRun _ rfl]

/-- After any cleanup call the removed flag is set. -/
theorem cleanupAfterBuild_sets_flag (s : LifecycleState) :
    (cleanupAfterBuild s).hasRemovedGaladrielDir = true := by
  by_cases h : s.hasRemovedGaladrielDir = true
  · simp [cleanupAfterBuild, h]
  · simp only [cleanupAfterBuild, removeGaladrielTempFolder]
    simp at h
    simp [h]
    by_cases hd : s.galadrielDirExists = true <;> simp [hd]

/-- A state whose removed flag is set is a fixed point of cleanup. -/
theorem cleanupAfterBuild_fix (s : LifecycleState)
    (h : s.hasRemovedGaladrielDir = true) : cleanupAfterBuild s = s := by
  simp [cleanupAfterBuild, h]

/-- Iterated cleanup of a state whose removed flag is set does nothing. -/
theorem cleanupAfterBuild_iterate_fix :
    ∀ (m : Nat) (s : LifecycleState), s.hasRemovedGaladrielDir = true →
      cleanupAfterBuild^[m] s = s := by
  intro m
  induction m with
  | zero => intro s _; rfl
  | succ k ih =>
    intro s h
    rw [Function.iterate_succ_apply, cleanupAfterBuild_fix s h, ih s h]

/-- One cleanup call performs at most one removal. -/
theorem cleanupAfterBuild_removeCount (s : LifecycleState) :
    (cleanupAfterBuild s).removeCount ≤ s.removeCount + 1 := by
  by_cases h : s.hasRemovedGaladrielDir = true
  · rw [cleanupAfterBuild_fix s h]; omega
  · simp only [cleanupAfterBuild, removeGaladrielTempFolder]
    simp at h
    simp [h]
    by_cases hd : s.galadrielDirExists = true <;> simp [hd]

/-- C5: the lifecycle guard is write-once and monotonic — installing the
production hooks any positive number of times and then letting the
compiler's `beforeRun` hook fire yields exactly one install and one build
invocation; cleanup fired any number of times performs at most one
removal, every call after the first being a no-op; and neither flag ever
goes back from `true`. -/
theorem lifecycle_guard_write_once
    (n m : Nat) (b : Bool) (s : LifecycleState) (hn : 0 < n) :
    (fireBeforeRun (setupProductionHooks^[n] (initialState b))).installCount = 1
    ∧ (fireBeforeRun (setupProductionHooks^[n] (initialState b))).buildCount = 1
    ∧ cleanupAfterBuild (cleanupAfterBuild s) = cleanupAfterBuild s
    ∧ (cleanupAfterBuild^[m] s).removeCount ≤ s.removeCount + 1
    ∧ (setupProductionHooks s).hasRunGaladrielBuild = true
    ∧ (cleanupAfterBuild s).hasRemovedGaladrielDir = true := by
  obtain ⟨k, rfl⟩ : ∃ k, n = k + 1 := ⟨n - 1, by omega⟩
  refine ⟨?_, ?_, ?_, ?_, ?_, cleanupAfterBuild_sets_flag s⟩
  · rw [setup_iter_closed b k]; rfl
  · rw [setup_iter_closed b k]; rfl
  · exact cleanupAfterBuild_fix _ (cleanupAfterBuild_sets_flag s)
  · cases m with
    | zero => simp
    | succ j =>
      rw [Function.iterate_succ_apply,
        cleanupAfterBuild_iterate_fix j (cleanupAfterBuild s)
          (cleanupAfterBuild_sets_flag s)]
      exact cleanupAfterBuild_removeCount s
  · by_cases h : s.hasRunGaladrielBuild = true <;>
      simp [setupProductionHooks, h]

/-- Witness for C5: two hook installations, one `beforeRun` firing, three
cleanup fires from a fresh state with the directory present. -/
theorem lifecycle_guard_write_once_witness :
    (fireBeforeRun
      (setupProductionHooks^[2] (initialState true))).installCount = 1
    ∧ (fireBeforeRun
      (setupProductionHooks^[2] (initialState true))).buildCount = 1
    ∧ cleanupAfterBuild (cleanupAfterBuild (initialState true)) =
      cleanupAfterBuild (initialState true)
    ∧ (cleanupAfterBuild^[3] (initialState true)).removeCount ≤
      (initialState true).removeCount + 1
    ∧ (setupProductionHooks (initialState true)).hasRunGaladrielBuild = true
    ∧ (cleanupAfterBuild (initialState true)).hasRemovedGaladrielDir = true :=
  lifecycle_guard_write_once 2 3 true (initialState true) (by decide)

/-- A run of identifier characters is consumed whole when nothing
follows. -/
theorem takeIdent_all :
    ∀ l : List Char, (∀ c ∈ l, isIdentChar c = true) → takeIdent l = (l, []) := by
  intro l
  induction l with
  | nil => intro _; rfl
  | cons c cs ih =>
    intro h
    rw [takeIdent, if_pos (h c (List.mem_cons_self c cs)),
      ih (fun d hd => h d (List.mem_cons_of_mem c hd))]

/-- A run of identifier characters followed by a non-identifier character
is consumed exactly up to that character. -/
theorem takeIdent_append_stop :
    ∀ (l : List Char), (∀ c ∈ l, isIdentChar c = true) →
      ∀ (b : Char) (rest : List Char), isIdentChar b = false →
        takeIdent (l ++ b :: rest) = (l, b :: rest) := by
  intro l
  induction l with
  | nil =>
    intro _ b rest hb
    rw [List.nil_append, takeIdent, if_neg (by simp [hb])]
  | cons c cs ih =>
    intro h b rest hb
    rw [List.cons_append, takeIdent,
      if_pos (h c (List.mem_cons_self c cs)),
      ih (fun d hd => h d (List.mem_cons_of_mem c hd)) b rest hb]

/-- Whatever `takeIdent` consumes consists of identifier characters. -/
theorem takeIdent_sound :
    ∀ (l a r : List Char), takeIdent l = (a, r) →
      ∀ c ∈ a, isIdentChar c = true := by
  intro l
  induction l with
  | nil =>
    intro a r h
    rw [takeIdent] at h
    cases h
    intro c hc
    exact absurd hc (List.not_mem_nil c)
  | cons c cs ih =>
    intro a r h
    rw [takeIdent] at h
    by_cases hc : isIdentChar c = true
    · rw [if_pos hc] at h
      cases h
      intro d hd
      rcases List.mem_cons.mp hd with rfl | hd2
      · exact hc
      · exact ih _ _ rfl d hd2
    · rw [if_neg hc] at h
      cases h
      intro d hd
      exact absurd hd (List.not_mem_nil d)

/-- The namespace markers are recognized exactly at the head of the
input. -/
theorem matchKind_kindSig (k : TokenKind) (rest : List Char) :
    matchKind (kindSig k ++ rest) = some (k, rest) := by
  cases k <;> rfl

/-- Soundness of the token matcher: both captured identifiers are
nonempty runs of identifier characters. -/
theorem matchToken_sound (l : List Char) (t : NenyrToken) (rest : List Char)
    (hm : matchToken l = some (t, rest)) :
    t.p1 ≠ [] ∧ (∀ c ∈ t.p1, isIdentChar c = true)
    ∧ ∀ s2, t.p2 = some s2 →
        s2 ≠ [] ∧ ∀ c ∈ s2, isIdentChar c = true := by
  unfold matchToken at hm
  split at hm
  · exact absurd hm (by simp)
  · split at hm
    · exact absurd hm (by simp)
    · rename_i x1 k r1 heqKind x2 c cs r2 heqTI
      have hp1 : ∀ d ∈ c :: cs, isIdentChar d = true :=
        takeIdent_sound r1 (c :: cs) r2 heqTI
      split at hm
      · split at hm
        · cases hm
          exact ⟨by simp, hp1, by simp⟩
        · rename_i r2x r3 x3 d ds r4 heqTI2
          cases hm
          refine ⟨by simp, hp1, ?_⟩
          intro s2 hs2
          cases hs2
          exact ⟨by simp, takeIdent_sound r3 (d :: ds) _ heqTI2⟩
      · cases hm
        exact ⟨by simp, hp1, by simp⟩

/-- C9 counterexample: the regex makes the sub-name component optional
for every namespace — a layout or module token without `::subName` is
matched, and a class token does carry a captured sub-name when one is
written. -/
theorem subname_optional_for_all_kinds :
    findTokens "@layout:aside" = [⟨.layout, "aside".data, none⟩]
    ∧ findTokens "@module:m" = [⟨.mod, 'm' :: [], none⟩]
    ∧ findTokens "@class:a::b" = [⟨.cls, 'a' :: [], some ('b' :: [])⟩] := by
  refine ⟨by decide, by decide, by decide⟩

/-- C9 amended: the grammar is kind-agnostic — every one of the three
namespaces accepts `@kind:name` both without and with a `::subName`
component, capturing accordingly, and all captured identifiers are
nonempty runs over `[a-zA-Z0-9_-]`. -/
theorem token_grammar_kind_agnostic
    (k : TokenKind) (name sub : List Char)
    (hname : name ≠ []) (hnameI : ∀ c ∈ name, isIdentChar c = true)
    (hsub : sub ≠ []) (hsubI : ∀ c ∈ sub, isIdentChar c = true)
    (l : List Char) (t : NenyrToken) (rest : List Char)
    (hm : matchToken l = some (t, rest)) :
    matchToken (tokenText ⟨k, name, none⟩) = some (⟨k, name, none⟩, [])
    ∧ matchToken (tokenText ⟨k, name, some sub⟩) =
      some (⟨k, name, some sub⟩, [])
    ∧ t.p1 ≠ [] ∧ (∀ c ∈ t.p1, isIdentChar c = true)
    ∧ ∀ s2, t.p2 = some s2 →
        s2 ≠ [] ∧ ∀ c ∈ s2, isIdentChar c = true := by
  obtain ⟨c, cs, rfl⟩ : ∃ c cs, name = c :: cs := by
    cases name with
    | nil => exact absurd rfl hname
    | cons c cs => exact ⟨c, cs, rfl⟩
  obtain ⟨d, ds, rfl⟩ : ∃ d ds, sub = d :: ds := by
    cases sub with
    | nil => exact absurd rfl hsub
    | cons d ds => exact ⟨d, ds, rfl⟩
  obtain ⟨h1, h2, h3⟩ := matchToken_sound l t rest hm
  refine ⟨?_, ?_, h1, h2, h3⟩
  · have ha := takeIdent_all (c :: cs) hnameI
    simp [tokenText, matchToken, matchKind_kindSig, ha]
  · have hb := takeIdent_append_stop (c :: cs) hnameI ':'
      (':' :: d :: ds) (by decide)
    have hc := takeIdent_all (d :: ds) hsubI
    simp only [List.cons_append] at hb
    simp [tokenText, matchToken, matchKind_kindSig, hb, hc]

/-- Witness for the amended C9 at concrete identifiers for each position
and a concrete successful match. -/
theorem token_grammar_kind_agnostic_witness :
    matchToken (tokenText ⟨.layout, 'n' :: 'a' :: 'v' :: [], none⟩) =
      some (⟨.layout, 'n' :: 'a' :: 'v' :: [], none⟩, [])
    ∧ matchToken
        (tokenText ⟨.layout, 'n' :: 'a' :: 'v' :: [], some ('i' :: '9' :: [])⟩) =
      some (⟨.layout, 'n' :: 'a' :: 'v' :: [], some ('i' :: '9' :: [])⟩, [])
    ∧ (NenyrToken.p1 ⟨.cls, 'x' :: [], none⟩) ≠ []
    ∧ (∀ c ∈ (NenyrToken.p1 ⟨.cls, 'x' :: [], none⟩), isIdentChar c = true)
    ∧ ∀ s2, (NenyrToken.p2 ⟨.cls, 'x' :: [], none⟩) = some s2 →
        s2 ≠ [] ∧ ∀ c ∈ s2, isIdentChar c = true :=
  token_grammar_kind_agnostic .layout ('n' :: 'a' :: 'v' :: [])
    ('i' :: '9' :: []) (by decide) (by decide) (by decide) (by decide)
    "@class:x".data ⟨.cls, 'x' :: [], none⟩ [] (by decide)

/-- A network resolver for which sequential first-occurrence replacement
diverges from own-site substitution: the response for the first token is
itself the text of the second token. -/
def resolveSwap : String → String :=
  fun s =>
    if s = "@class:a" then "@class:b"
    else if s = "@class:b" then "Z" else ""

/-- C6 counterexample: two matches issue two requests, but the sequential
first-occurrence substitution of the source places the second response on
top of the first response instead of at the second token's own match
site, so the claimed own-match substitution fails. -/
theorem live_substitution_not_at_own_site :
    requestsOf "@class:a x @class:b" = "@class:a" :: "@class:b" :: []
    ∧ asyncReplaceNenyrMakrup resolveSwap "@class:a x @class:b" =
      "Z x @class:b"
    ∧ specOwnSiteSubstitute resolveSwap "@class:a x @class:b" =
      "@class:b x Z"
    ∧ ("Z x @class:b" : String) ≠ "@class:b x Z" :=
  ⟨by decide, by decide, by decide, by decide⟩

/-- Reassembling responses by match index is invariant under the arrival
order: any permutation of the indexed responses fills the result slots
with exactly the in-order responses. -/
theorem resultsFromArrivals_of_perm (resp : List String)
    (arrivals : List (Nat × String)) (h : arrivals.Perm resp.enum) :
    resultsFromArrivals resp.length arrivals = resp.map some := by
  have hfind : ∀ i : Nat, ∀ hi : i < resp.length,
      arrivals.find? (fun p => p.1 = i) = some (i, resp[i]) := by
    intro i hi
    have hmem : ((i, resp[i]) : Nat × String) ∈ arrivals := by
      rw [h.mem_iff]
      exact List.mk_mem_enum_iff_getElem?.mpr (by simp)
    have hsome : (arrivals.find? (fun p => p.1 = i)).isSome := by
      rw [List.find?_isSome]
      exact ⟨(i, resp[i]), hmem, by simp⟩
    obtain ⟨q, hq⟩ := Option.isSome_iff_exists.mp hsome
    have hq1 : q.1 = i := by simpa using List.find?_some hq
    have hqmem : q ∈ resp.enum := h.mem_iff.mp (List.mem_of_find?_eq_some hq)
    have hq2 : resp[i]? = some q.2 := by
      have hq3 := List.mk_mem_enum_iff_getElem?.mp
        (show (q.1, q.2) ∈ resp.enum by simpa using hqmem)
      rwa [hq1] at hq3
    have hq4 : q.2 = resp[i] := by
      rw [List.getElem?_eq_getElem hi] at hq2
      exact (Option.some.inj hq2).symm
    rw [hq]
    rw [show q = (i, resp[i]) from Prod.ext hq1 hq4]
  apply List.ext_getElem?
  intro i
  by_cases hi : i < resp.length
  · rw [resultsFromArrivals]
    rw [List.getElem?_map, List.getElem?_range hi, List.getElem?_map,
      List.getElem?_eq_getElem hi]
    simp [hfind i hi]
  · rw [resultsFromArrivals]
    rw [List.getElem?_map, List.getElem?_map]
    have h1 : (List.range resp.length)[i]? = none := by
      rw [List.getElem?_eq_none]
      simpa using Nat.le_of_not_lt hi
    have h2 : resp[i]? = none := by
      rw [List.getElem?_eq_none]
      exact Nat.le_of_not_lt hi
    rw [h1, h2]
    rfl

/-- C6 amended: one resolution request is issued per match, and because
`Promise.all` reassembles responses by match index, the transform's
output is the same for every network completion order; the responses are
then substituted sequentially in extraction order, each replacing the
first occurrence of its token's matched text in the current text (which
is not always that token's own match site). -/
theorem live_requests_and_completion_order
    (resolve : String → String) (source : String)
    (arrivals : List (Nat × String))
    (hperm : arrivals.Perm ((requestsOf source).map resolve).enum) :
    asyncReplaceFromArrivals arrivals source =
      asyncReplaceNenyrMakrup resolve source
    ∧ (requestsOf source).length = (findTokens source).length := by
  constructor
  · rw [asyncReplaceFromArrivals, asyncReplaceNenyrMakrup]
    have hlen : (requestsOf source).length =
        ((requestsOf source).map resolve).length :=
      (List.length_map _ _).symm
    rw [hlen, resultsFromArrivals_of_perm _ _ hperm, List.map_map,
      List.map_map]
    rfl
  · simp [requestsOf]

/-- Witness for the amended C6: delivering the two responses in reversed
arrival order produces the same output as the in-order resolution. -/
theorem live_requests_and_completion_order_witness :
    asyncReplaceFromArrivals ((1, "Z") :: (0, "@class:b") :: [])
      "@class:a x @class:b" =
      asyncReplaceNenyrMakrup resolveSwap "@class:a x @class:b"
    ∧ (requestsOf "@class:a x @class:b").length =
      (findTokens "@class:a x @class:b").length :=
  live_requests_and_completion_order resolveSwap "@class:a x @class:b"
    ((1, "Z") :: (0, "@class:b") :: []) (by decide)

end Galadriel
